import Mathlib

/-
Verification of the `sossFieldSim` field-contamination simulator
(ExoCTK/tor/tor2/sossFieldSim.py) against its natural-language
specification.  The Python source is shallowly embedded below:

* machine floats on the coordinate/photometry side are modelled by ℚ
  (the relevant arithmetic — sums, products, divisions by 15, 60, 3600,
  floors — is exact on the inputs the claims quantify over);
* numpy integer index arithmetic is modelled by ℤ;
* the simulation cube is modelled as a total function
  plane → row → column → ℚ, with writes expressed pointwise;
* the template archive (an external `.sav` file) is an abstract
  function parameter, as are the flux scales (the claims under study
  never depend on their numeric values, only on how they are combined).
-/

namespace SossFieldSim

/-! ## Template-canvas geometry (lines 144-152 of sossFieldSim.py)

`modelPadX`, `modelPadY`, `dimXmod`, `dimYmod` are scalar constants
restored from the model archive. -/

structure ModelDims where
  modelPadX : ℤ
  modelPadY : ℤ
  dimXmod : ℤ
  dimYmod : ℤ

/-! ## Window arithmetic of the trace compositor (lines 250-265)

For a field star whose projected offset rounds to `(intx, inty)` the code
computes the raw template-canvas window `[mx0:mx1] × [my0:my1]`, skips the
star when that window misses the canvas, and otherwise clips it, deriving
the destination corner `(x0, y0)` in the 2048 × 256 output plane. -/

def mx0 (d : ModelDims) (intx : ℤ) : ℤ :=
  d.modelPadX - intx

def mx1 (d : ModelDims) (intx : ℤ) : ℤ :=
  d.modelPadX - intx + 256

def my0 (d : ModelDims) (inty : ℤ) : ℤ :=
  d.modelPadY - inty

def my1 (d : ModelDims) (inty : ℤ) : ℤ :=
  d.modelPadY - inty + 2048

/-- Out-of-bounds test of lines 255-258: `continue` when the raw window lies
entirely outside the template canvas. -/
def skipStar (d : ModelDims) (intx inty : ℤ) : Bool :=
  (mx0 d intx > d.dimXmod) || (my0 d inty > d.dimYmod) ||
    (mx1 d intx < 0) || (my1 d inty < 0)

/-- Destination-column corner, line 260: `x0 = (mx0<0)*(-mx0)`. -/
def x0 (d : ModelDims) (intx : ℤ) : ℤ :=
  if mx0 d intx < 0 then -(mx0 d intx) else 0

/-- Destination-row corner, line 261: `y0 = (my0<0)*(-my0)`. -/
def y0 (d : ModelDims) (inty : ℤ) : ℤ :=
  if my0 d inty < 0 then -(my0 d inty) else 0

/-- Clipped low column edge, line 262: `mx0 *= (mx0 >= 0)`. -/
def mx0c (d : ModelDims) (intx : ℤ) : ℤ :=
  if mx0 d intx ≥ 0 then mx0 d intx else 0

/-- Clipped high column edge, line 263: `mx1 = dimXmod if mx1>dimXmod else mx1`. -/
def mx1c (d : ModelDims) (intx : ℤ) : ℤ :=
  if mx1 d intx > d.dimXmod then d.dimXmod else mx1 d intx

/-- Clipped low row edge, line 264: `my0 *= (my0 >= 0)`. -/
def my0c (d : ModelDims) (inty : ℤ) : ℤ :=
  if my0 d inty ≥ 0 then my0 d inty else 0

/-- Clipped high row edge, line 265: `my1 = dimYmod if my1>dimYmod else my1`. -/
def my1c (d : ModelDims) (inty : ℤ) : ℤ :=
  if my1 d inty > d.dimYmod then d.dimYmod else my1 d inty

/-- C1: for every retained (non-skipped) field star, under the canvas
invariant `dimXmod = 256 + 2*modelPadX`, `dimYmod = 2048 + 2*modelPadY`
(with nonnegative padding), the clipped source window
`[my0c:my1c, mx0c:mx1c]` stays inside the template canvas, the matching
destination window `[y0 : y0+(my1c-my0c), x0 : x0+(mx1c-mx0c)]` stays
inside the 2048 × 256 output plane, no index is negative, and source and
destination windows have equal width and height by construction. -/
theorem clip_windows_in_bounds (d : ModelDims) (intx inty : ℤ)
    (hpx : 0 ≤ d.modelPadX) (hpy : 0 ≤ d.modelPadY)
    (hdx : d.dimXmod = 256 + 2 * d.modelPadX)
    (hdy : d.dimYmod = 2048 + 2 * d.modelPadY)
    (hskip : skipStar d intx inty = false) :
    0 ≤ mx0c d intx ∧ mx0c d intx ≤ mx1c d intx ∧ mx1c d intx ≤ d.dimXmod ∧
    0 ≤ my0c d inty ∧ my0c d inty ≤ my1c d inty ∧ my1c d inty ≤ d.dimYmod ∧
    0 ≤ x0 d intx ∧ x0 d intx + (mx1c d intx - mx0c d intx) ≤ 256 ∧
    0 ≤ y0 d inty ∧ y0 d inty + (my1c d inty - my0c d inty) ≤ 2048 ∧
    (x0 d intx + (mx1c d intx - mx0c d intx)) - x0 d intx
      = mx1c d intx - mx0c d intx ∧
    (y0 d inty + (my1c d inty - my0c d inty)) - y0 d inty
      = my1c d inty - my0c d inty := by
  simp only [skipStar, Bool.or_eq_false_iff, decide_eq_false_iff_not, not_lt] at hskip
  simp only [x0, y0, mx0c, mx1c, my0c, my1c, mx0, mx1, my0, my1] at *
  split_ifs at * <;> omega

/-- Witness for C1 at a concrete geometry: padding 10 in each axis,
canvas 276 × 2068, star offset `(intx, inty) = (200, -50)` (retained). -/
theorem clip_windows_in_bounds_witness :
    0 ≤ mx0c ⟨10, 10, 276, 2068⟩ 200 ∧
    mx0c ⟨10, 10, 276, 2068⟩ 200 ≤ mx1c ⟨10, 10, 276, 2068⟩ 200 ∧
    mx1c ⟨10, 10, 276, 2068⟩ 200 ≤ (276 : ℤ) ∧
    0 ≤ my0c ⟨10, 10, 276, 2068⟩ (-50) ∧
    my0c ⟨10, 10, 276, 2068⟩ (-50) ≤ my1c ⟨10, 10, 276, 2068⟩ (-50) ∧
    my1c ⟨10, 10, 276, 2068⟩ (-50) ≤ (2068 : ℤ) ∧
    0 ≤ x0 ⟨10, 10, 276, 2068⟩ 200 ∧
    x0 ⟨10, 10, 276, 2068⟩ 200 +
      (mx1c ⟨10, 10, 276, 2068⟩ 200 - mx0c ⟨10, 10, 276, 2068⟩ 200) ≤ 256 ∧
    0 ≤ y0 ⟨10, 10, 276, 2068⟩ (-50) ∧
    y0 ⟨10, 10, 276, 2068⟩ (-50) +
      (my1c ⟨10, 10, 276, 2068⟩ (-50) - my0c ⟨10, 10, 276, 2068⟩ (-50)) ≤ 2048 ∧
    (x0 ⟨10, 10, 276, 2068⟩ 200 +
        (mx1c ⟨10, 10, 276, 2068⟩ 200 - mx0c ⟨10, 10, 276, 2068⟩ 200)) -
        x0 ⟨10, 10, 276, 2068⟩ 200
      = mx1c ⟨10, 10, 276, 2068⟩ 200 - mx0c ⟨10, 10, 276, 2068⟩ 200 ∧
    (y0 ⟨10, 10, 276, 2068⟩ (-50) +
        (my1c ⟨10, 10, 276, 2068⟩ (-50) - my0c ⟨10, 10, 276, 2068⟩ (-50))) -
        y0 ⟨10, 10, 276, 2068⟩ (-50)
      = my1c ⟨10, 10, 276, 2068⟩ (-50) - my0c ⟨10, 10, 276, 2068⟩ (-50) :=
  clip_windows_in_bounds ⟨10, 10, 276, 2068⟩ 200 (-50)
    (by decide) (by decide) (by decide) (by decide) (by decide)

/-! ## The simulation cube and the per-star compositor (lines 162, 227-268)

`simucube` is a stack of 2048 × 256 planes: planes 0 and 1 hold the
target's two spectral orders, plane `angle+2` the contamination at that
angle.  A retained star is reduced to the data the inner loop consumes:
its rounded offset `(intx, inty)`, its flux scale
`10^(-0.4*(jmag - target jmag))` (carried as an abstract ℚ value: the
claims below never depend on its magnitude), and its template index `k`. -/

structure FieldStar where
  intx : ℤ
  inty : ℤ
  fluxscale : ℚ
  k : ℕ

/-- Archive data consumed by the compositor: `models k` is the padded
template canvas of temperature bucket `k` (row, column → intensity) and
`modelO12 k ord` the target's order-`ord` template from file `k`. -/
structure SimConfig extends ModelDims where
  models : ℕ → ℤ → ℤ → ℚ
  modelO12 : ℕ → ℕ → ℤ → ℤ → ℚ

/-- Cube state: plane index, row, column → accumulated intensity. -/
def Cube : Type :=
  ℕ → ℤ → ℤ → ℚ

/-- Intensity the line-268 statement adds at plane pixel `(y, x)` for one
star: zero for the target row (`intx = inty = 0`, line 249 guard), zero
when the line-255/257 test skips the star, and otherwise the flux-scaled
template sample aligned with the clipped destination window. -/
def starContrib (cfg : SimConfig) (s : FieldStar) (y x : ℤ) : ℚ :=
  if s.intx = 0 ∧ s.inty = 0 then 0
  else if skipStar cfg.toModelDims s.intx s.inty then 0
  else if y0 cfg.toModelDims s.inty ≤ y ∧
          y < y0 cfg.toModelDims s.inty +
            (my1c cfg.toModelDims s.inty - my0c cfg.toModelDims s.inty) ∧
          x0 cfg.toModelDims s.intx ≤ x ∧
          x < x0 cfg.toModelDims s.intx +
            (mx1c cfg.toModelDims s.intx - mx0c cfg.toModelDims s.intx) then
    cfg.models s.k (my0c cfg.toModelDims s.inty + (y - y0 cfg.toModelDims s.inty))
      (mx0c cfg.toModelDims s.intx + (x - x0 cfg.toModelDims s.intx)) * s.fluxscale
  else 0

/-- One pass of the inner star loop (lines 239-268) over the cube: the
target star at the first angle overwrites planes 0 and 1 with its two
order templates (lines 244-245); a field star adds its clipped
contribution into plane `angle + 2` (line 268); everything else is left
unchanged. -/
def processStar (cfg : SimConfig) (angle : ℕ) (s : FieldStar) (c : Cube) : Cube :=
  fun p y x =>
    if s.intx = 0 ∧ s.inty = 0 ∧ angle = 0 ∧ (p = 0 ∨ p = 1) ∧
        0 ≤ y ∧ y < 2048 ∧ 0 ≤ x ∧ x < 256 then
      cfg.modelO12 s.k p (cfg.modelPadY + y) (cfg.modelPadX + x) * s.fluxscale
    else if ¬(s.intx = 0 ∧ s.inty = 0) ∧ p = angle + 2 then
      c p y x + starContrib cfg s y x
    else c p y x

/-- The full inner loop of one angle over its retained in-FOV stars. -/
def processAngle (cfg : SimConfig) (angle : ℕ) (stars : List FieldStar)
    (c : Cube) : Cube :=
  stars.foldl (fun acc s => processStar cfg angle s acc) c

/-- The outer angle loop (line 194): angles `0, 1, …, n-1`, each with its
own list of retained in-FOV stars. -/
def runSim (cfg : SimConfig) (n : ℕ) (starsAt : ℕ → List FieldStar)
    (c : Cube) : Cube :=
  (List.range n).foldl (fun acc a => processAngle cfg a (starsAt a) acc) c

lemma processStar_contam_plane (cfg : SimConfig) (angle : ℕ) (s : FieldStar)
    (c : Cube) (y x : ℤ) :
    processStar cfg angle s c (angle + 2) y x
      = c (angle + 2) y x + starContrib cfg s y x := by
  by_cases h : s.intx = 0 ∧ s.inty = 0
  · simp [processStar, starContrib, h]
  · simp [processStar, h]

/-- C2: compositing into the contamination plane of an angle is additive —
after the inner loop runs, every pixel of plane `angle + 2` equals its
previous value plus the sum of the individually clipped, flux-scaled
contributions of the retained stars (target rows contribute zero there);
in particular two overlapping field stars at the same angle sum, never
overwrite. -/
theorem contam_plane_additive (cfg : SimConfig) (angle : ℕ)
    (stars : List FieldStar) (c : Cube) (y x : ℤ) :
    processAngle cfg angle stars c (angle + 2) y x
        = c (angle + 2) y x
          + (stars.map (fun s => starContrib cfg s y x)).sum ∧
    ∀ s₁ s₂ : FieldStar,
      processAngle cfg angle [s₁, s₂] c (angle + 2) y x
        = c (angle + 2) y x + starContrib cfg s₁ y x
            + starContrib cfg s₂ y x := by
  have key : ∀ (l : List FieldStar) (c' : Cube),
      processAngle cfg angle l c' (angle + 2) y x
        = c' (angle + 2) y x + (l.map (fun s => starContrib cfg s y x)).sum := by
    intro l
    induction l with
    | nil => intro c'; simp [processAngle]
    | cons s t ih =>
        intro c'
        have h1 : processAngle cfg angle (s :: t) c'
            = processAngle cfg angle t (processStar cfg angle s c') := rfl
        rw [h1, ih, processStar_contam_plane]
        simp [add_assoc]
  refine ⟨key stars c, ?_⟩
  intro s₁ s₂
  rw [key [s₁, s₂] c]
  simp [add_assoc]

/-- C3: a field star whose raw window lies entirely outside the template
canvas (the line-255/257 skip test fires) contributes zero intensity at
every pixel and leaves the whole cube bit-for-bit unchanged at every
angle — no exception, no partial write. -/
theorem skipped_star_no_contribution (cfg : SimConfig) (s : FieldStar)
    (hfield : s.intx ≠ 0 ∨ s.inty ≠ 0)
    (hskip : skipStar cfg.toModelDims s.intx s.inty = true) :
    (∀ y x : ℤ, starContrib cfg s y x = 0) ∧
    ∀ (angle : ℕ) (c : Cube), processStar cfg angle s c = c := by
  have hne : ¬(s.intx = 0 ∧ s.inty = 0) := by tauto
  have hzero : ∀ y x : ℤ, starContrib cfg s y x = 0 := by
    intro y x
    simp [starContrib, hne, hskip]
  refine ⟨hzero, ?_⟩
  intro angle c
  funext p y x
  by_cases hp : p = angle + 2
  · subst hp
    rw [processStar_contam_plane, hzero, add_zero]
  · simp only [processStar]
    split_ifs with h1 h2
    · exact absurd ⟨h1.1, h1.2.1⟩ hne
    · exact absurd h2.2 hp
    · rfl

/-- Concrete configuration used by the witnesses: padding 10,
canvas 276 × 2068, constant unit templates. -/
def cfg0 : SimConfig :=
  { modelPadX := 10, modelPadY := 10, dimXmod := 276, dimYmod := 2068,
    models := fun _ _ _ => 1, modelO12 := fun _ _ _ _ => 1 }

/-- Witness for C3: the star offset `(300, 0)` pushes the raw window to
`mx1 = -34 < 0`, so the skip test fires and the contribution vanishes,
here evaluated at pixel `(3, 7)`. -/
theorem skipped_star_no_contribution_witness :
    starContrib cfg0 ⟨300, 0, 2, 0⟩ 3 7 = 0 :=
  (skipped_star_no_contribution cfg0 ⟨300, 0, 2, 0⟩ (Or.inl (by decide))
    (by decide)).1 3 7

lemma processStar_target_planes_frozen (cfg : SimConfig) (angle : ℕ)
    (s : FieldStar) (c : Cube) (p : ℕ) (y x : ℤ) (hp : p = 0 ∨ p = 1)
    (h : angle ≠ 0 ∨ s.intx ≠ 0 ∨ s.inty ≠ 0) :
    processStar cfg angle s c p y x = c p y x := by
  simp only [processStar]
  split_ifs with h1 h2
  · rcases h with h | h | h
    · exact absurd h1.2.2.1 h
    · exact absurd h1.1 h
    · exact absurd h1.2.1 h
  · rcases hp with rfl | rfl <;> omega
  · rfl

lemma processAngle_target_planes_frozen (cfg : SimConfig) (angle : ℕ)
    (stars : List FieldStar) (c : Cube) (p : ℕ) (y x : ℤ)
    (hp : p = 0 ∨ p = 1) (ha : angle ≠ 0) :
    processAngle cfg angle stars c p y x = c p y x := by
  induction stars generalizing c with
  | nil => rfl
  | cons s t ih =>
      have h1 : processAngle cfg angle (s :: t) c
          = processAngle cfg angle t (processStar cfg angle s c) := rfl
      rw [h1, ih, processStar_target_planes_frozen cfg angle s c p y x hp
        (Or.inl ha)]

/-- C4: the target's order-1/order-2 planes (indices 0 and 1) are written
only during the first angle iteration and only by a star whose rounded
offset is `(0, 0)`: after any run over `n ≥ 1` angles their content is
exactly what the angle-0 iteration left there; a star that is not the
`(0, 0)` target at angle 0 never touches them; and a `(0, 0)`-offset star
never contributes to any contamination plane (index ≥ 2) at any angle. -/
theorem target_planes_write_once (cfg : SimConfig) (n : ℕ)
    (starsAt : ℕ → List FieldStar) (c : Cube) (hn : 1 ≤ n) :
    (∀ (p : ℕ) (y x : ℤ), p = 0 ∨ p = 1 →
      runSim cfg n starsAt c p y x
        = processAngle cfg 0 (starsAt 0) c p y x) ∧
    (∀ (angle : ℕ) (s : FieldStar) (c' : Cube) (p : ℕ) (y x : ℤ),
      p = 0 ∨ p = 1 → (angle ≠ 0 ∨ s.intx ≠ 0 ∨ s.inty ≠ 0) →
      processStar cfg angle s c' p y x = c' p y x) ∧
    (∀ (angle : ℕ) (s : FieldStar) (c' : Cube) (p : ℕ) (y x : ℤ),
      s.intx = 0 → s.inty = 0 → 2 ≤ p →
      processStar cfg angle s c' p y x = c' p y x) := by
  refine ⟨?_, ?_, ?_⟩
  · intro p y x hp
    induction n with
    | zero => omega
    | succ m ih =>
        have hrange : List.range (m + 1) = List.range m ++ [m] := by
          simp [List.range_succ]
        have hfold : runSim cfg (m + 1) starsAt c
            = processAngle cfg m (starsAt m) (runSim cfg m starsAt c) := by
          simp only [runSim, hrange, List.foldl_append, List.foldl_cons,
            List.foldl_nil]
        by_cases hm : m = 0
        · subst hm
          rw [hfold]
          rfl
        · rw [hfold, processAngle_target_planes_frozen cfg m (starsAt m) _ p
            y x hp hm]
          exact ih (by omega)
  · exact fun angle s c' p y x hp h =>
      processStar_target_planes_frozen cfg angle s c' p y x hp h
  · intro angle s c' p y x hx hy hp2
    simp only [processStar]
    split_ifs with h1 h2
    · rcases h1.2.2.2.1 with rfl | rfl <;> omega
    · exact absurd ⟨hx, hy⟩ h2.1
    · rfl

/-- Witness for C4: two angles, one field star per angle, zero initial
cube; plane 0 at pixel `(1, 1)` after the full run equals its value after
the angle-0 iteration alone. -/
theorem target_planes_write_once_witness :
    runSim cfg0 2 (fun _ => [⟨5, 5, 2, 0⟩]) (fun _ _ _ => 0) 0 1 1
      = processAngle cfg0 0 [⟨5, 5, 2, 0⟩] (fun _ _ _ => 0) 0 1 1 :=
  (target_planes_write_once cfg0 2 (fun _ => [⟨5, 5, 2, 0⟩])
    (fun _ _ _ => 0) (by decide)).1 0 1 1 (Or.inl rfl)

/-! ## The sexagesimal converter `deg2HMS` (lines 97-124)

The numeric decomposition is modelled over ℚ (the float arithmetic of
the source restricted to the operations used here).  Python's `int()`
truncates toward zero; every value it is applied to in `deg2HMS` is
nonnegative after the sign strip, where truncation coincides with the
floor used below.  The sign test `str(v)[0] == '-'` is modelled by
`v < 0` (ℚ has no negative zero). -/

def raTriple (ra : ℚ) (round : Bool) : Bool × ℤ × ℤ × ℚ :=
  let rs : Bool := decide (ra < 0)
  let r : ℚ := if ra < 0 then |ra| else ra
  let raH : ℤ := ⌊r / 15⌋
  let raM : ℤ := ⌊(r / 15 - raH) * 60⌋
  let raS : ℚ := if round then ((⌊((r / 15 - raH) * 60 - raM) * 60⌋ : ℤ) : ℚ)
    else ((r / 15 - raH) * 60 - raM) * 60
  (rs, raH, raM, raS)

def decTriple (dec : ℚ) (round : Bool) : Bool × ℤ × ℤ × ℚ :=
  let ds : Bool := decide (dec < 0)
  let d : ℚ := if dec < 0 then |dec| else dec
  let deg : ℤ := ⌊d⌋
  let decM : ℤ := |⌊(d - deg) * 60⌋|
  let decS : ℚ := if round then ((⌊(|(d - deg) * 60| - decM) * 60⌋ : ℤ) : ℚ)
    else (|(d - deg) * 60| - decM) * 60
  (ds, deg, decM, decS)

/-- Re-parsing an RA triple `(sign, hours, minutes, seconds)` back to
decimal degrees — the spec's round-trip direction. -/
def raTripleToDeg (t : Bool × ℤ × ℤ × ℚ) : ℚ :=
  (if t.1 then -1 else 1) * (((t.2.1 : ℚ) + (t.2.2.1 : ℚ) / 60 + t.2.2.2 / 3600) * 15)

/-- Re-parsing a Dec triple `(sign, degrees, minutes, seconds)` back to
decimal degrees. -/
def decTripleToDeg (t : Bool × ℤ × ℤ × ℚ) : ℚ :=
  (if t.1 then -1 else 1) * ((t.2.1 : ℚ) + (t.2.2.1 : ℚ) / 60 + t.2.2.2 / 3600)

lemma sub_floor_bounds (S : ℚ) : 0 ≤ S - ⌊S⌋ ∧ S - ⌊S⌋ < 1 := by
  constructor
  · have := Int.fract_nonneg S
    rw [Int.fract] at this; linarith
  · have := Int.fract_lt_one S
    rw [Int.fract] at this; linarith

lemma raTriple_exact (ra : ℚ) : raTripleToDeg (raTriple ra false) = ra := by
  unfold raTriple raTripleToDeg
  by_cases h : ra < 0
  · simp only [h, decide_True, if_true, abs_of_neg h, Bool.ite_eq_true_distrib,
      Bool.false_eq_true, if_false]
    ring
  · simp only [h, decide_False, if_false, Bool.false_eq_true]
    ring

lemma raTriple_trunc (ra : ℚ) :
    |ra - raTripleToDeg (raTriple ra true)| < 15 / 3600 := by
  unfold raTriple raTripleToDeg
  by_cases h : ra < 0
  · simp only [h, decide_True, if_true, abs_of_neg h, Bool.ite_eq_true_distrib,
      eq_self_iff_true]
    set q : ℚ := -ra / 15 with hq
    set S : ℚ := ((q - ⌊q⌋) * 60 - ⌊(q - ⌊q⌋) * 60⌋) * 60 with hS
    have hb := sub_floor_bounds S
    have key : ra - (-1) * (((⌊q⌋:ℚ) + (⌊(q - ⌊q⌋) * 60⌋:ℚ)/60 + ((⌊S⌋:ℚ))/3600) * 15)
        = -((S - ⌊S⌋) * 15 / 3600) := by
      have hra : ra = -(q * 15) := by rw [hq]; ring
      rw [hS, hra]; ring
    rw [key, abs_neg,
      abs_of_nonneg (div_nonneg (mul_nonneg hb.1 (by norm_num)) (by norm_num))]
    nlinarith [hb.1, hb.2]
  · simp only [h, decide_False, if_false, Bool.false_eq_true, eq_self_iff_true,
      if_true]
    set q : ℚ := ra / 15 with hq
    set S : ℚ := ((q - ⌊q⌋) * 60 - ⌊(q - ⌊q⌋) * 60⌋) * 60 with hS
    have hb := sub_floor_bounds S
    have key : ra - 1 * (((⌊q⌋:ℚ) + (⌊(q - ⌊q⌋) * 60⌋:ℚ)/60 + ((⌊S⌋:ℚ))/3600) * 15)
        = (S - ⌊S⌋) * 15 / 3600 := by
      have hra : ra = q * 15 := by rw [hq]; ring
      rw [hS, hra]; ring
    rw [key,
      abs_of_nonneg (div_nonneg (mul_nonneg hb.1 (by norm_num)) (by norm_num))]
    nlinarith [hb.1, hb.2]

lemma fracPart_nonneg (d : ℚ) : 0 ≤ (d - ⌊d⌋) * 60 := by
  have := Int.fract_nonneg d
  rw [Int.fract] at this; linarith

lemma minuteFloor_abs (d : ℚ) : |(⌊(d - ⌊d⌋) * 60⌋ : ℤ)| = ⌊(d - ⌊d⌋) * 60⌋ :=
  abs_of_nonneg (Int.floor_nonneg.mpr (fracPart_nonneg d))

lemma minuteVal_abs (d : ℚ) : |(d - (⌊d⌋ : ℚ)) * 60| = (d - ⌊d⌋) * 60 :=
  abs_of_nonneg (fracPart_nonneg d)

lemma decTriple_exact (dec : ℚ) : decTripleToDeg (decTriple dec false) = dec := by
  unfold decTriple decTripleToDeg
  by_cases h : dec < 0
  · simp only [h, decide_True, if_true, abs_of_neg h, Bool.ite_eq_true_distrib,
      Bool.false_eq_true, if_false, minuteFloor_abs, minuteVal_abs]
    ring
  · simp only [h, decide_False, if_false, Bool.false_eq_true, minuteFloor_abs,
      minuteVal_abs]
    ring

lemma decTriple_trunc (dec : ℚ) :
    |dec - decTripleToDeg (decTriple dec true)| < 1 / 3600 := by
  unfold decTriple decTripleToDeg
  by_cases h : dec < 0
  · simp only [h, decide_True, if_true, abs_of_neg h, Bool.ite_eq_true_distrib,
      eq_self_iff_true, minuteFloor_abs, minuteVal_abs]
    set S : ℚ := ((-dec - ⌊-dec⌋) * 60 - ⌊(-dec - ⌊-dec⌋) * 60⌋) * 60 with hS
    have hb := sub_floor_bounds S
    have key : dec - (-1) * ((((⌊(-dec:ℚ)⌋:ℚ)) + ((⌊(-dec - (⌊(-dec:ℚ)⌋:ℚ)) * 60⌋:ℚ))/60
          + ((⌊S⌋:ℚ))/3600))
        = -((S - ⌊S⌋) / 3600) := by
      rw [hS]; ring
    rw [key, abs_neg, abs_of_nonneg (div_nonneg hb.1 (by norm_num))]
    linarith [hb.2]
  · simp only [h, decide_False, if_false, Bool.false_eq_true, eq_self_iff_true,
      if_true, minuteFloor_abs, minuteVal_abs]
    set S : ℚ := ((dec - ⌊dec⌋) * 60 - ⌊(dec - ⌊dec⌋) * 60⌋) * 60 with hS
    have hb := sub_floor_bounds S
    have key : dec - 1 * ((((⌊dec⌋:ℚ)) + ((⌊(dec - (⌊dec⌋:ℚ)) * 60⌋:ℚ))/60
          + ((⌊S⌋:ℚ))/3600))
        = (S - ⌊S⌋) / 3600 := by
      rw [hS]; ring
    rw [key, abs_of_nonneg (div_nonneg hb.1 (by norm_num))]
    linarith [hb.2]

/-- C9: for every pair inside the converter's valid domain (nonzero RA
and Dec — the value 0 falls through the truthiness guard, see the zero
claim below), re-parsing the sexagesimal decomposition back to decimal
degrees recovers the value exactly when the rounding flag is unset, and
to within the truncation error of one second (one RA second is 15/3600
degree, one Dec second 1/3600 degree) when the flag is set. -/
theorem deg2HMS_roundtrip (ra dec : ℚ) (hra : ra ≠ 0) (hdec : dec ≠ 0) :
    raTripleToDeg (raTriple ra false) = ra ∧
    decTripleToDeg (decTriple dec false) = dec ∧
    |ra - raTripleToDeg (raTriple ra true)| < 15 / 3600 ∧
    |dec - decTripleToDeg (decTriple dec true)| < 1 / 3600 :=
  ⟨raTriple_exact ra, decTriple_exact dec, raTriple_trunc ra, decTriple_trunc dec⟩

/-- Witness for C9 at `RA = 150.5°`, `Dec = -20.25°`. -/
theorem deg2HMS_roundtrip_witness :
    raTripleToDeg (raTriple (150.5 : ℚ) false) = 150.5 ∧
    decTripleToDeg (decTriple (-20.25 : ℚ) false) = -20.25 ∧
    |(150.5 : ℚ) - raTripleToDeg (raTriple (150.5 : ℚ) true)| < 15 / 3600 ∧
    |(-20.25 : ℚ) - decTripleToDeg (decTriple (-20.25 : ℚ) true)| < 1 / 3600 :=
  deg2HMS_roundtrip (150.5 : ℚ) (-20.25 : ℚ) (by norm_num) (by norm_num)

/-! ## String side of `deg2HMS` and the output path (lines 97-128)

`fmtTriple` renders `'{sign}{a} {b} {s}'`; in the rounded branch the
seconds slot holds a Python `int`, rendered here through the numerator of
the (integral) rational.  The full `deg2HMS` keeps the source's
truthiness guards: a component is produced only when the corresponding
argument is nonzero, and with one or no component produced the function
returns the single string `RA or DEC` instead of the pair. -/

def fmtTriple (t : Bool × ℤ × ℤ × ℚ) (round : Bool) : String :=
  (if t.1 then ("-") else ("")) ++ toString t.2.1 ++ (" ") ++ toString t.2.2.1
    ++ (" ") ++ (if round then toString t.2.2.2.num else toString t.2.2.2)

def deg2HMS (ra dec : ℚ) (round : Bool) : String ⊕ (String × String) :=
  let DEC : String := if dec ≠ 0 then fmtTriple (decTriple dec round) round else ("")
  let RA : String := if ra ≠ 0 then fmtTriple (raTriple ra round) round else ("")
  if ra ≠ 0 ∧ dec ≠ 0 then Sum.inr (RA, DEC)
  else Sum.inl (if RA ≠ ("") then RA else DEC)

/-- C10: the converter treats the numeric value 0 like an absent
argument — with both arguments zero it returns the empty string (and
does not raise: it is total), with `ra = 0` it falls back to the Dec
component alone and with `dec = 0` to the RA component alone, and the
empty string returned for a zero argument differs from the zero
sexagesimal representation `"0 0 0"` that a faithful total conversion
would produce. -/
theorem deg2HMS_zero_guard :
    (∀ round : Bool, deg2HMS 0 0 round = Sum.inl ("")) ∧
    fmtTriple (raTriple 0 true) true = "0 0 0" ∧
    (∀ (d : ℚ) (round : Bool), d ≠ 0 →
      deg2HMS 0 d round = Sum.inl (fmtTriple (decTriple d round) round)) ∧
    (∀ (r : ℚ) (round : Bool), r ≠ 0 →
      deg2HMS r 0 round = Sum.inl (fmtTriple (raTriple r round) round)) ∧
    (Sum.inl ("") : String ⊕ String × String) ≠ Sum.inl ("0 0 0") := by
  refine ⟨?_, ?_, ?_, ?_, ?_⟩
  · intro round
    simp [deg2HMS]
  · have h : raTriple 0 true = (false, 0, 0, (0:ℚ)) := by norm_num [raTriple]
    rw [h]
    rfl
  · intro d round hd
    simp [deg2HMS, hd]
  · intro r round hr
    simp only [deg2HMS, hr, ne_eq, not_false_eq_true, if_true, not_true_eq_false,
      if_false, and_false, false_and]
    split_ifs with hs
    · exact congrArg Sum.inl hs.symm
    · rfl
  · decide

/-- Witness for C10: the Dec-only fallback instantiated at `dec = 20`. -/
theorem deg2HMS_zero_guard_witness :
    deg2HMS 0 20 true = Sum.inl (fmtTriple (decTriple 20 true) true) :=
  deg2HMS_zero_guard.2.2.1 20 true (by norm_num)

/-- Python `str.replace(' ', ':')` of line 128 (single-character form:
every blank becomes a colon). -/
def colonize (s : String) : String :=
  ⟨s.data.map (fun c => if c = ' ' then ':' else c)⟩

/-- The string produced by the line-128 call pattern
`deg2HMS(ra = v, round = True)` (only the `ra` keyword is passed, so the
single-string branch is taken). -/
def deg2HMSraStr (v : ℚ) : String :=
  match deg2HMS v 0 true with
  | Sum.inl s => s
  | Sum.inr p => p.1

/-- Line 128: the output path.  Note that the source renders BOTH
components through the `ra` branch of `deg2HMS` — the declination is
passed as the `ra` keyword argument. -/
def cubeName (dirStr : String) (raT decT : ℚ) (suf : String) : String :=
  dirStr ++ ("/cube_RA_") ++ colonize (deg2HMSraStr raT) ++ ("_DEC_")
    ++ colonize (deg2HMSraStr decT) ++ suf ++ (".fits")

/-- C6 fails on the code: for a target at `RA = 150°`, `Dec = +20°` the
path's `_DEC_` component is `1:20:0` — the declination divided by 15 and
rendered as hours:minutes:seconds through the `ra` branch — while the
claimed signed degrees:minutes:seconds rendering of `+20°` is `20:0:0`;
the two differ, so the produced name does not have the claimed
`_DEC_±dd:mm:ss` form. -/
theorem cubeName_dec_rendered_as_hours :
    cubeName (".") 150 20 ("") = "./cube_RA_10:0:0_DEC_1:20:0.fits" ∧
    colonize (fmtTriple (decTriple 20 true) true) = "20:0:0" ∧
    ("./cube_RA_10:0:0_DEC_1:20:0.fits" : String)
      ≠ "./cube_RA_10:0:0_DEC_20:0:0.fits" := by
  refine ⟨?_, ?_, by decide⟩
  · have h1 : raTriple 150 true = (false, 10, 0, (0:ℚ)) := by norm_num [raTriple]
    have h2 : raTriple 20 true = (false, 1, 20, (0:ℚ)) := by norm_num [raTriple]
    rw [cubeName, deg2HMSraStr, deg2HMSraStr, deg2HMS, deg2HMS]
    norm_num [h1, h2]
    decide
  · have h3 : decTriple 20 true = (false, 20, 0, (0:ℚ)) := by norm_num [decTriple]
    rw [h3]
    rfl

/-! ## Companion injection into the catalog (lines 84-93) -/

structure Catalog where
  contamRA : List ℚ
  contamDEC : List ℚ
  Jmag : List ℚ
  Hmag : List ℚ
  Kmag : List ℚ

/-- Lines 86-90 as written.  Two fidelity remarks: the bare name `cos` on
line 86 is not bound by any import of the module (reaching this line
raises `NameError` in Python), so the cosine factor is carried here as an
abstract parameter; and line 89 reads `Hmag = np.append(Kmag, binComp[3])`
— the new H-magnitude array is built from the OLD K-magnitude array, not
from the H-magnitude array. -/
def addBinComp (c : Catalog) (targetIndex : ℕ) (binComp : List ℚ)
    (cosTargetDec : ℚ) : Catalog :=
  { contamRA := c.contamRA ++
      [c.contamRA.getD targetIndex 0 + binComp.getD 0 0 / 3600 / cosTargetDec],
    contamDEC := c.contamDEC ++
      [c.contamDEC.getD targetIndex 0 + binComp.getD 1 0 / 3600],
    Jmag := c.Jmag ++ [binComp.getD 2 0],
    Hmag := c.Kmag ++ [binComp.getD 3 0],
    Kmag := c.Kmag ++ [binComp.getD 4 0] }

/-- C5 fails on the code: on a one-star catalog with magnitudes
`J, H, K = (10, 11, 12)` and companion `[5, 0, 15, 15, 15]`, the
pre-existing entry's H magnitude silently changes from 11 to 12 (its K
value), because line 89 appends to `Kmag` instead of `Hmag`; the claim's
"every pre-existing entry's magnitudes are unchanged" is violated (and
the Python run would already have crashed at line 86 on the undefined
name `cos`). -/
theorem addBinComp_corrupts_H :
    (addBinComp ⟨[150], [20], [10], [11], [12]⟩ 0 [5, 0, 15, 15, 15] 1).Hmag
        = [12, 15] ∧
    (addBinComp ⟨[150], [20], [10], [11], [12]⟩ 0
        [5, 0, 15, 15, 15] 1).Hmag.getD 0 0
      ≠ (Catalog.Hmag ⟨[150], [20], [10], [11], [12]⟩).getD 0 0 := by
  constructor
  · rfl
  · decide

/-! ## Run flow around the stale-artifact check (lines 84-93, 139-140, 270-272) -/

/-- Control flow of one `sossFieldSim` run reduced to what decides the
return value.  A run with a companion supplied executes the companion
branch (lines 84-93) FIRST — before the output name is computed at line
128 and before the existence check at line 139 — and its line 86 refers
to the bare name `cos`, which no import of the module binds, so every
companion run raises `NameError` there.  Only a companion-free run
reaches line 139, where `os.path.exists(cubeName) and (binComp is not
None)` is evaluated with `binComp is None`, hence false; the run then
proceeds to line 270 (`fits.writeto(cubeName, simucube, overwrite =
True)`) and returns the path at line 272.  `Except.error` carries the
raised exception; in the `ok` result the Bool records whether the write
was performed. -/
def sossFieldSimFlow (hasBinComp fileExists : Bool) (name : String) :
    Except String (Option String × Bool) :=
  if hasBinComp then Except.error ("NameError: name cos is not defined")
  else if fileExists && hasBinComp then Except.ok (none, false)
  else Except.ok (some name, true)

/-- C7 fails on the code: a run with a companion supplied raises
`NameError` at line 86 (the unbound name `cos`) before the line-139
existence check is ever reached, so with the output file already present
it does NOT return the claimed success-no-op `none` — it crashes, and
the line-139/140 short circuit is dead code on the only path that could
take it.  The companion-free half of the claim does hold: such a run
proceeds regardless of the file's existence, writes with
`overwrite = True`, and returns the path. -/
theorem companion_run_crashes_before_check :
    sossFieldSimFlow true true ("cube.fits")
        = Except.error ("NameError: name cos is not defined") ∧
    sossFieldSimFlow true true ("cube.fits")
        ≠ Except.ok ((none : Option String), false) ∧
    sossFieldSimFlow false true ("cube.fits")
        = Except.ok (some ("cube.fits"), true) ∧
    sossFieldSimFlow false false ("cube.fits")
        = Except.ok (some ("cube.fits"), true) := by
  refine ⟨rfl, ?_, rfl, rfl⟩
  intro h
  exact Except.noConfusion h

/-! ## Color classification and template lookup (lines 183-187, 232-233)

Per star the source computes
`color_seperation = (J_Hobs[j]-jhMod)**2 + (H_Kobs[j]-hkMod)**2`, takes
`np.argmin` (first minimal index) and stores `T[j] = teffMod[ind]`; the
compositing loop later re-derives the template index with
`k = np.where(teffMod == T)[0][0]` — the FIRST index whose temperature
equals the stored value. -/

/-- Value of `np.min`; 0 on the empty list (unused case). -/
def listMin : List ℚ → ℚ
  | [] => 0
  | [a] => a
  | a :: b :: t => min a (listMin (b :: t))

/-- Index semantics of `np.argmin`: first occurrence of the minimum. -/
def argminFirst : List ℚ → ℕ
  | [] => 0
  | [_] => 0
  | a :: b :: t => if a ≤ listMin (b :: t) then 0 else argminFirst (b :: t) + 1

lemma listMin_le_mem (l : List ℚ) : ∀ x ∈ l, listMin l ≤ x := by
  induction l with
  | nil => simp
  | cons a t ih =>
      intro x hx
      cases t with
      | nil =>
          simp only [List.mem_singleton] at hx
          subst hx
          exact le_refl _
      | cons b u =>
          rcases List.mem_cons.mp hx with rfl | hx2
          · exact min_le_left _ _
          · exact le_trans (min_le_right _ _) (ih x hx2)

lemma argminFirst_lt_length (l : List ℚ) (h : l ≠ []) :
    argminFirst l < l.length := by
  induction l with
  | nil => exact absurd rfl h
  | cons a t ih =>
      cases t with
      | nil => simp [argminFirst]
      | cons b u =>
          rw [argminFirst]
          split_ifs
          · simp
          · have := ih (by simp)
            simpa [Nat.succ_lt_succ_iff] using this

lemma getD_argminFirst (l : List ℚ) (h : l ≠ []) :
    l.getD (argminFirst l) 0 = listMin l := by
  induction l with
  | nil => exact absurd rfl h
  | cons a t ih =>
      cases t with
      | nil => rfl
      | cons b u =>
          rw [argminFirst, listMin]
          split_ifs with hle
          · exact (min_eq_left hle).symm
          · have h2 := ih (by simp)
            have h3 : (a :: b :: u).getD (argminFirst (b :: u) + 1) 0
                = (b :: u).getD (argminFirst (b :: u)) 0 := rfl
            rw [h3, h2]
            exact (min_eq_right (le_of_lt (lt_of_not_le hle))).symm

lemma argminFirst_strict_before (l : List ℚ) :
    ∀ j, j < argminFirst l → listMin l < l.getD j 0 := by
  induction l with
  | nil => intro j hj; simp [argminFirst] at hj
  | cons a t ih =>
      cases t with
      | nil => intro j hj; simp [argminFirst] at hj
      | cons b u =>
          intro j hj
          rw [argminFirst] at hj
          split_ifs at hj with hle
          · omega
          · rw [listMin, min_eq_right (le_of_lt (lt_of_not_le hle))]
            cases j with
            | zero => exact lt_of_not_le hle
            | succ j' =>
                have hj' : j' < argminFirst (b :: u) := by omega
                exact ih j' hj'

lemma indexOf_le_getD (l : List ℚ) (i : ℕ) (h : i < l.length) :
    l.indexOf (l.getD i 0) ≤ i := by
  induction l generalizing i with
  | nil => simp at h
  | cons a t ih =>
      cases i with
      | zero =>
          have hgd : (a :: t).getD 0 0 = a := rfl
          rw [hgd, List.indexOf_cons_self]
      | succ i' =>
          have hgd : (a :: t).getD (i' + 1) 0 = t.getD i' 0 := rfl
          rw [hgd]
          rcases eq_or_ne a (t.getD i' 0) with heq | hne
          · rw [List.indexOf_cons_eq t heq]
            omega
          · rw [List.indexOf_cons_ne t hne]
            have := ih i' (by simpa using h)
            omega

/-- Line 185: squared Euclidean color distance to every grid point. -/
def colorSep (jh hk : ℚ) (jhMod hkMod : List ℚ) : List ℚ :=
  List.zipWith (fun a b => (jh - a)^2 + (hk - b)^2) jhMod hkMod

/-- Line 186: `min_seperation_ind = np.argmin(color_seperation)`. -/
def min_seperation_ind (jh hk : ℚ) (jhMod hkMod : List ℚ) : ℕ :=
  argminFirst (colorSep jh hk jhMod hkMod)

/-- Line 187: the assigned temperature `T[j] = teffMod[min_seperation_ind]`. -/
def classifyT (jh hk : ℚ) (jhMod hkMod teffMod : List ℚ) : ℚ :=
  teffMod.getD (min_seperation_ind jh hk jhMod hkMod) 0

/-- Lines 232-233: `k = np.where(teffMod == T_loop[i])[0][0]` — first
index whose temperature equals the stored value. -/
def templateIndex (teffMod : List ℚ) (T : ℚ) : ℕ :=
  teffMod.indexOf T

/-- C8 (amended): classification assigns `teffMod[i*]` where `i*` is the
first index minimizing the squared color distance (every later index has
distance no smaller, every earlier index strictly larger — the stable
argmin, hence deterministic), and the template index recovered in the
compositing loop is the FIRST grid index whose temperature equals
`teffMod[i*]`: it never exceeds `i*`, carries the same temperature, and
equals `i*` whenever the temperature axis has no duplicate values — but
not necessarily otherwise (see the mismatch counterexample). -/
theorem classify_argmin_template (jh hk : ℚ) (jhM hkM teffM : List ℚ)
    (hne : jhM ≠ []) (hlh : hkM.length = jhM.length)
    (hlt : teffM.length = jhM.length) :
    (min_seperation_ind jh hk jhM hkM < teffM.length) ∧
    (∀ j, j < (colorSep jh hk jhM hkM).length →
      (colorSep jh hk jhM hkM).getD (min_seperation_ind jh hk jhM hkM) 0
        ≤ (colorSep jh hk jhM hkM).getD j 0) ∧
    (∀ j, j < min_seperation_ind jh hk jhM hkM →
      (colorSep jh hk jhM hkM).getD (min_seperation_ind jh hk jhM hkM) 0
        < (colorSep jh hk jhM hkM).getD j 0) ∧
    (templateIndex teffM (classifyT jh hk jhM hkM teffM)
        ≤ min_seperation_ind jh hk jhM hkM) ∧
    (teffM.getD (templateIndex teffM (classifyT jh hk jhM hkM teffM)) 0
        = classifyT jh hk jhM hkM teffM) ∧
    (teffM.Nodup → templateIndex teffM (classifyT jh hk jhM hkM teffM)
        = min_seperation_ind jh hk jhM hkM) := by
  have hsep : (colorSep jh hk jhM hkM).length = jhM.length := by
    simp [colorSep, List.length_zipWith, hlh]
  have hsepne : colorSep jh hk jhM hkM ≠ [] := by
    intro hemp
    rw [hemp] at hsep
    exact hne (List.length_eq_zero.mp hsep.symm)
  have hargd := getD_argminFirst (colorSep jh hk jhM hkM) hsepne
  have hlt1 : min_seperation_ind jh hk jhM hkM < teffM.length := by
    have := argminFirst_lt_length (colorSep jh hk jhM hkM) hsepne
    rw [hsep] at this
    rw [hlt]
    exact this
  refine ⟨hlt1, ?_, ?_, ?_, ?_, ?_⟩
  · intro j hj
    rw [min_seperation_ind, hargd]
    exact listMin_le_mem _ _ (by
      rw [List.getD_eq_getElem _ _ hj]
      exact List.getElem_mem hj)
  · intro j hj
    rw [min_seperation_ind, hargd]
    exact argminFirst_strict_before _ j hj
  · exact indexOf_le_getD teffM _ hlt1
  · have hmem : classifyT jh hk jhM hkM teffM ∈ teffM := by
      rw [classifyT, List.getD_eq_getElem _ _ hlt1]
      exact List.getElem_mem hlt1
    have hidx : List.indexOf (classifyT jh hk jhM hkM teffM) teffM < teffM.length :=
      List.indexOf_lt_length.mpr hmem
    rw [templateIndex, List.getD_eq_getElem _ _ hidx]
    exact List.getElem_indexOf hidx
  · intro hnd
    rw [templateIndex, classifyT, List.getD_eq_getElem _ _ hlt1]
    exact List.indexOf_getElem hnd _ hlt1

/-- Counterexample to C8 as stated: on the color grid
`jhMod = hkMod = [0, 1]` with duplicated temperature axis
`teffMod = [5000, 5000]` and observed colors `(1, 1)`, the
minimum-distance index is 1 but the template index recovered through the
temperature value is 0: the trace template used is NOT the one at the
minimum-distance grid index. -/
theorem classify_template_mismatch :
    min_seperation_ind 1 1 [0, 1] [0, 1] = 1 ∧
    templateIndex [5000, 5000] (classifyT 1 1 [0, 1] [0, 1] [5000, 5000]) = 0 ∧
    templateIndex [5000, 5000] (classifyT 1 1 [0, 1] [0, 1] [5000, 5000])
      ≠ min_seperation_ind 1 1 [0, 1] [0, 1] := by
  have h1 : min_seperation_ind 1 1 [0, 1] [0, 1] = 1 := by
    norm_num [min_seperation_ind, colorSep, argminFirst, listMin]
  have h2 : templateIndex [5000, 5000] (classifyT 1 1 [0, 1] [0, 1] [5000, 5000])
      = 0 := by
    have hc : classifyT 1 1 [0, 1] [0, 1] [5000, 5000] = 5000 := by
      rw [classifyT, h1]
      rfl
    rw [hc, templateIndex]
    rfl
  exact ⟨h1, h2, by omega⟩

/-- Witness for C8 on a duplicate-free grid `teffMod = [4000, 5000]`:
the template carries exactly the classified temperature. -/
theorem classify_argmin_template_witness :
    [(4000 : ℚ), 5000].getD
        (templateIndex [4000, 5000] (classifyT 1 1 [0, 1] [0, 1] [4000, 5000])) 0
      = classifyT 1 1 [0, 1] [0, 1] [4000, 5000] :=
  (classify_argmin_template 1 1 [0, 1] [0, 1] [4000, 5000]
    (by decide) (by decide) (by decide)).2.2.2.2.1

end SossFieldSim
